import Mathlib

/-!
Verification of the EvalMate evaluation pipeline and payment handlers.

The definitions below are a shallow embedding of the TypeScript source:
  - `supabase/functions/evaluate-task/ai.ts` (JSON sanitizing/extraction,
    structure validation, score clamping, code truncation, model fallback,
    premium-insights normalization),
  - `supabase/functions/verify-razorpay-payment/index.ts` (synchronous
    payment verification handler),
  - the `razorpay-webhook` edge function (asynchronous capture handler).

JS strings are modelled as `List Char`; JS objects produced by `JSON.parse`
are modelled by the inductive `Json` below, with JSON numbers modelled as
integers (every concrete number appearing in the claims is an integer).
-/

namespace EvalMate

/-- Characters that are awkward under the source-language syntax are named. -/
def backtickChar : Char := Char.ofNat 96

def lbraceChar : Char := Char.ofNat 123

def rbraceChar : Char := Char.ofNat 125

def quoteChar : Char := Char.ofNat 34

def backslashChar : Char := Char.ofNat 92

/-- Model of a JavaScript value produced by `JSON.parse`.
Numbers are modelled as integers. -/
inductive Json where
  | null : Json
  | bool (b : Bool) : Json
  | num (n : Int) : Json
  | str (s : String) : Json
  | arr (elems : List Json) : Json
  | obj (fields : List (String × Json)) : Json
deriving Inhabited

namespace Json

/-- Property lookup `j[k]`: `none` models JS `undefined`. -/
def getField : Json → String → Option Json
  | .obj fields, k => lookupKey fields k
  | _, _ => none
where
  lookupKey : List (String × Json) → String → Option Json
    | [], _ => none
    | (k', v) :: rest, k => if k' = k then some v else lookupKey rest k

/-- Property assignment `j[k] = v` on an object: replaces the existing
entry in place (JS keeps the original insertion position) or appends. -/
def setField : Json → String → Json → Json
  | .obj fields, k, v => .obj (setKey fields k v)
  | j, _, _ => j
where
  setKey : List (String × Json) → String → Json → List (String × Json)
    | [], k, v => [(k, v)]
    | (k', v') :: rest, k, v =>
      if k' = k then (k, v) :: rest else (k', v') :: setKey rest k v

/-- `typeof x === "number"`. -/
def isNum : Json → Bool
  | .num _ => true
  | _ => false

/-- `Array.isArray(x)`. -/
def isArr : Json → Bool
  | .arr _ => true
  | _ => false

/-- `typeof x === "string"`. -/
def isStr : Json → Bool
  | .str _ => true
  | _ => false

end Json

/-! ### Character-level helpers shared by the pipeline model -/

/-- Whitespace as recognised by the source's `trim`/`\s` usage. -/
def isJsWs (c : Char) : Bool :=
  c = ' ' || c = '\n' || c = '\t' || c = '\r'

/-- Skip leading whitespace. -/
def skipWs (s : List Char) : List Char := s.dropWhile isJsWs

/-- `String.prototype.trim()`: strip whitespace from both ends. -/
def jsTrim (s : List Char) : List Char :=
  ((s.dropWhile isJsWs).reverse.dropWhile isJsWs).reverse

/-- `needle` occurs as a contiguous substring of `hay` (`String.prototype.includes`). -/
def jsIncludes (hay needle : List Char) : Bool :=
  match hay with
  | [] => needle.isEmpty
  | _ :: tl => needle.isPrefixOf hay || jsIncludes tl needle

/-- `String.prototype.toLowerCase()` (ASCII, which is all the source uses). -/
def toLowerList (s : List Char) : List Char := s.map Char.toLower

/-! ### A model of `JSON.parse`

Recursive-descent parser over `List Char`, with numbers restricted to
integers (all numbers in the claims are integers).  A trailing-garbage
suffix makes the whole parse fail, as `JSON.parse` does. -/

def digitVal (c : Char) : Option Nat :=
  if '0' ≤ c ∧ c ≤ '9' then some (c.toNat - 48) else none

def hexVal (c : Char) : Option Nat :=
  if '0' ≤ c ∧ c ≤ '9' then some (c.toNat - 48)
  else if 'a' ≤ c ∧ c ≤ 'f' then some (c.toNat - 87)
  else if 'A' ≤ c ∧ c ≤ 'F' then some (c.toNat - 55)
  else none

def escapeChar (c : Char) : Option Char :=
  if c = quoteChar then some quoteChar
  else if c = backslashChar then some backslashChar
  else if c = '/' then some '/'
  else if c = 'n' then some '\n'
  else if c = 't' then some '\t'
  else if c = 'r' then some '\r'
  else if c = 'b' then some (Char.ofNat 8)
  else if c = 'f' then some (Char.ofNat 12)
  else none

def parseStringBodyGo : Nat → List Char → Option (List Char × List Char)
  | 0, _ => none
  | _ + 1, [] => none
  | fuel + 1, c :: cs =>
    if c = quoteChar then some ([], cs)
    else if c = backslashChar then
      match cs with
      | [] => none
      | e :: cs' =>
        if e = 'u' then
          match cs' with
          | h1 :: h2 :: h3 :: h4 :: cs'' =>
            match hexVal h1, hexVal h2, hexVal h3, hexVal h4 with
            | some a, some b, some c3, some d =>
              match parseStringBodyGo fuel cs'' with
              | some (s, r) => some (Char.ofNat (((a * 16 + b) * 16 + c3) * 16 + d) :: s, r)
              | none => none
            | _, _, _, _ => none
          | _ => none
        else
          match escapeChar e with
          | some ec =>
            match parseStringBodyGo fuel cs' with
            | some (s, r) => some (ec :: s, r)
            | none => none
          | none => none
    else
      match parseStringBodyGo fuel cs with
      | some (s, r) => some (c :: s, r)
      | none => none

/-- Parse the body of a JSON string literal (the opening quote has already
been consumed); returns the decoded content and the input after the
closing quote. -/
def parseStringBody (l : List Char) : Option (List Char × List Char) :=
  parseStringBodyGo (l.length + 1) l

def parseDigitsGo : List Char → Nat → Nat × List Char
  | [], acc => (acc, [])
  | c :: cs, acc =>
    match digitVal c with
    | some d => parseDigitsGo cs (acc * 10 + d)
    | none => (acc, c :: cs)

def parseDigits : List Char → Option (Nat × List Char)
  | [] => none
  | c :: cs =>
    match digitVal c with
    | some d => some (parseDigitsGo cs d)
    | none => none

mutual

def parseValue : Nat → List Char → Option (Json × List Char)
  | 0, _ => none
  | fuel + 1, s =>
    match skipWs s with
    | [] => none
    | c :: rest =>
      if c = quoteChar then
        match parseStringBody rest with
        | some (content, r) => some (.str (String.mk content), r)
        | none => none
      else if c = lbraceChar then parseObjBody fuel (skipWs rest)
      else if c = '[' then parseArrBody fuel (skipWs rest)
      else if c = 't' then
        match rest with
        | 'r' :: 'u' :: 'e' :: r => some (.bool true, r)
        | _ => none
      else if c = 'f' then
        match rest with
        | 'a' :: 'l' :: 's' :: 'e' :: r => some (.bool false, r)
        | _ => none
      else if c = 'n' then
        match rest with
        | 'u' :: 'l' :: 'l' :: r => some (.null, r)
        | _ => none
      else if c = '-' then
        match parseDigits rest with
        | some (n, r) => some (.num (-(n : Int)), r)
        | none => none
      else
        match digitVal c with
        | some _ =>
          match parseDigits (c :: rest) with
          | some (n, r) => some (.num (n : Int), r)
          | none => none
        | none => none

/-- Input is positioned just after `lbraceChar` (whitespace skipped). -/
def parseObjBody : Nat → List Char → Option (Json × List Char)
  | 0, _ => none
  | fuel + 1, s =>
    match s with
    | [] => none
    | c :: rest =>
      if c = rbraceChar then some (.obj [], rest)
      else parseMembers fuel [] (c :: rest)

def parseMembers : Nat → List (String × Json) → List Char → Option (Json × List Char)
  | 0, _, _ => none
  | fuel + 1, acc, s =>
    match skipWs s with
    | [] => none
    | c :: rest =>
      if c = quoteChar then
        match parseStringBody rest with
        | some (key, r1) =>
          match skipWs r1 with
          | ':' :: r2 =>
            match parseValue fuel r2 with
            | some (v, r3) =>
              let acc' := Json.setField.setKey acc (String.mk key) v
              match skipWs r3 with
              | [] => none
              | c2 :: r4 =>
                if c2 = ',' then parseMembers fuel acc' r4
                else if c2 = rbraceChar then some (.obj acc', r4)
                else none
            | none => none
          | _ => none
        | none => none
      else none

/-- Input is positioned just after `'['` (whitespace skipped). -/
def parseArrBody : Nat → List Char → Option (Json × List Char)
  | 0, _ => none
  | fuel + 1, s =>
    match s with
    | [] => none
    | c :: rest =>
      if c = ']' then some (.arr [], rest)
      else parseItems fuel [] (c :: rest)

def parseItems : Nat → List Json → List Char → Option (Json × List Char)
  | 0, _, _ => none
  | fuel + 1, acc, s =>
    match parseValue fuel s with
    | some (v, r) =>
      match skipWs r with
      | [] => none
      | c :: r2 =>
        if c = ',' then parseItems fuel (acc ++ [v]) r2
        else if c = ']' then some (.arr (acc ++ [v]), r2)
        else none
    | none => none

end

/-- Model of `JSON.parse`: `none` models a thrown `SyntaxError`. -/
def parseJson (s : List Char) : Option Json :=
  match parseValue (s.length + 1) s with
  | some (v, rest) => if skipWs rest = [] then some v else none
  | none => none

/-! ### `extractFirstJson` (ai.ts lines 40-57)

Finds the first `lbraceChar` and tracks nested braces to locate its
matching `rbraceChar`, oblivious to string literals — exactly as the
source's loop. -/

/-- Suffix of the input starting at the first `lbraceChar` (`text.indexOf`). -/
def findBraceStart : List Char → Option (List Char)
  | [] => none
  | c :: cs => if c = lbraceChar then some (c :: cs) else findBraceStart cs

/-- The source's depth-tracking loop: decrementing to depth 0 at an
`rbraceChar` returns everything scanned so far. -/
def scanBrace : List Char → Int → List Char → Option (List Char)
  | [], _, _ => none
  | c :: cs, depth, acc =>
    if c = lbraceChar then scanBrace cs (depth + 1) (c :: acc)
    else if c = rbraceChar then
      if depth = 1 then some (c :: acc).reverse
      else scanBrace cs (depth - 1) (c :: acc)
    else scanBrace cs depth (c :: acc)

def extractFirstJson (text : List Char) : Option (List Char) :=
  match findBraceStart text with
  | none => none
  | some suffix => scanBrace suffix 0 []

/-! ### `sanitizeJson` (ai.ts lines 11-37)

Each regex replace is modelled by a left-to-right scanner that emits
replaced text without rescanning it, matching `String.prototype.replace`
with a global regex. -/

def jsonEscapeChar (c : Char) : List Char :=
  if c = quoteChar then [backslashChar, quoteChar]
  else if c = backslashChar then [backslashChar, backslashChar]
  else if c = '\n' then [backslashChar, 'n']
  else if c = '\r' then [backslashChar, 'r']
  else if c = '\t' then [backslashChar, 't']
  else [c]

/-- `JSON.stringify` applied to a string value. -/
def jsonStringifyStr (s : List Char) : List Char :=
  quoteChar :: (s.map jsonEscapeChar).flatten ++ [quoteChar]

/-- Matches `/```json\s*/i` at the head of the input; returns the rest. -/
def matchFenceJson : List Char → Option (List Char)
  | [] => none
  | c1 :: rest1 =>
    if c1 = backtickChar then
      match rest1 with
      | c2 :: c3 :: j :: o :: s :: n :: rest =>
        if c2 = backtickChar && c3 = backtickChar && j.toLower = 'j' && o.toLower = 'o' &&
            s.toLower = 's' && n.toLower = 'n' then
          some (skipWs rest)
        else none
      | _ => none
    else none

def removeFenceJsonGo : Nat → List Char → List Char
  | 0, l => l
  | _ + 1, [] => []
  | fuel + 1, c :: cs =>
    match matchFenceJson (c :: cs) with
    | some rest => removeFenceJsonGo fuel rest
    | none => c :: removeFenceJsonGo fuel cs

/-- The global case-insensitive removal of "```json" fence openers and following whitespace. -/
def removeFenceJson (l : List Char) : List Char := removeFenceJsonGo (l.length + 1) l

/-- Matches `/```\s*/` at the head of the input; returns the rest. -/
def matchFence : List Char → Option (List Char)
  | [] => none
  | c1 :: rest1 =>
    if c1 = backtickChar then
      match rest1 with
      | c2 :: c3 :: rest =>
        if c2 = backtickChar && c3 = backtickChar then some (skipWs rest) else none
      | _ => none
    else none

def removeFenceGo : Nat → List Char → List Char
  | 0, l => l
  | _ + 1, [] => []
  | fuel + 1, c :: cs =>
    match matchFence (c :: cs) with
    | some rest => removeFenceGo fuel rest
    | none => c :: removeFenceGo fuel cs

/-- The global removal of "```" fences and following whitespace. -/
def removeFence (l : List Char) : List Char := removeFenceGo (l.length + 1) l

/-- Split at the next `backtickChar`: (before, after) with the backtick dropped. -/
def splitAtBacktick : List Char → Option (List Char × List Char)
  | [] => none
  | c :: cs =>
    if c = backtickChar then some ([], cs)
    else (splitAtBacktick cs).map (fun p => (c :: p.1, p.2))

def replaceBacktickPairsGo : Nat → List Char → List Char
  | 0, l => l
  | _ + 1, [] => []
  | fuel + 1, c :: cs =>
    if c = backtickChar then
      match splitAtBacktick cs with
      | some (content, rest) => jsonStringifyStr content ++ replaceBacktickPairsGo fuel rest
      | none => c :: replaceBacktickPairsGo fuel cs
    else c :: replaceBacktickPairsGo fuel cs

/-- The `/`([^`]*)`/g → JSON.stringify(content)` replacement. -/
def replaceBacktickPairs (l : List Char) : List Char :=
  replaceBacktickPairsGo (l.length + 1) l

/-- Matches `/"‹field›":\s*`([^`]*)`/` at the head of the input; returns
the captured content and the rest. -/
def matchCodeField (field : List Char) : List Char → Option (List Char × List Char)
  | [] => none
  | c :: rest =>
    if c = quoteChar ∧ (field ++ [quoteChar, ':']).isPrefixOf rest then
      match skipWs (rest.drop (field.length + 2)) with
      | [] => none
      | b :: r3 => if b = backtickChar then splitAtBacktick r3 else none
    else none

def replaceCodeFieldGo (field : List Char) : Nat → List Char → List Char
  | 0, l => l
  | _ + 1, [] => []
  | fuel + 1, c :: cs =>
    match matchCodeField field (c :: cs) with
    | some (content, rest) =>
      (quoteChar :: field ++ [quoteChar, ':', ' ']) ++ jsonStringifyStr content ++
        replaceCodeFieldGo field fuel rest
    | none => c :: replaceCodeFieldGo field fuel cs

/-- The `/"code":\s*`([^`]*)`/g → `"code": ` + JSON.stringify(code)` replacement. -/
def replaceCodeField (field l : List Char) : List Char :=
  replaceCodeFieldGo field (l.length + 1) l

/-- `sanitizeJson` (ai.ts lines 11-37): trim, strip fences, rewrite
backtick-delimited blocks, fix `code`/`correctedCode` fields and drop
remaining backticks. -/
def sanitizeJson (jsonString : List Char) : List Char :=
  (replaceCodeField ("correctedCode".data)
    (replaceCodeField ("code".data)
      (replaceBacktickPairs
        (removeFence
          (removeFenceJson (jsTrim jsonString)))))).filter (fun c => c ≠ backtickChar)

/-! ### The markdown-code-block fallback and candidate extraction
(ai.ts lines 311-331) -/

/-- Suffix of the input right after the first occurrence of three backticks. -/
def findFence : List Char → Option (List Char)
  | c1 :: c2 :: c3 :: rest =>
    if c1 = backtickChar && c2 = backtickChar && c3 = backtickChar then some rest
    else findFence (c2 :: c3 :: rest)
  | _ => none

def isPrefix3Backticks : List Char → Bool
  | c1 :: c2 :: c3 :: _ => c1 = backtickChar && c2 = backtickChar && c3 = backtickChar
  | _ => false

/-- Characters before the next fence, or `none` if no closing fence. -/
def splitBeforeFence : List Char → Option (List Char)
  | [] => none
  | c :: cs =>
    if isPrefix3Backticks (c :: cs) then some []
    else (splitBeforeFence cs).map (c :: ·)

/-- The `/```(?:json)?\s*([\s\S]*?)```/i` capture. -/
def mdCodeBlockExtract (l : List Char) : Option (List Char) :=
  match findFence l with
  | none => none
  | some afterOpen =>
    let afterJson :=
      match afterOpen with
      | j :: o :: s :: n :: rest =>
        if j.toLower = 'j' && o.toLower = 'o' && s.toLower = 's' && n.toLower = 'n' then rest
        else afterOpen
      | _ => afterOpen
    splitBeforeFence (skipWs afterJson)

def startsWithLbrace : List Char → Bool
  | c :: _ => c = lbraceChar
  | [] => false

/-- The candidate-selection logic of `evaluateTask` (ai.ts lines 311-331):
trim; if the text does not start with a brace, extract the first balanced
JSON object, falling back to a fenced code block. -/
def extractCandidate (rawOutput : List Char) : List Char :=
  if startsWithLbrace (jsTrim rawOutput) then jsTrim rawOutput
  else
    match extractFirstJson (jsTrim rawOutput) with
    | some extracted => extracted
    | none =>
      match mdCodeBlockExtract (jsTrim rawOutput) with
      | some content => jsTrim content
      | none => jsTrim rawOutput

/-- The response-normalization path of `evaluateTask`: candidate
extraction, `sanitizeJson`, then `JSON.parse` (`none` = the thrown
"Invalid JSON returned from AI" error). -/
def normalizeAIResponse (rawOutput : List Char) : Option Json :=
  parseJson (sanitizeJson (extractCandidate rawOutput))

/-! ### Structure validation and score clamp (ai.ts lines 346-358) -/

def fieldIsNum (j : Json) (k : String) : Bool :=
  match Json.getField j k with
  | some v => v.isNum
  | none => false

def fieldIsArr (j : Json) (k : String) : Bool :=
  match Json.getField j k with
  | some v => v.isArr
  | none => false

def fieldIsStr (j : Json) (k : String) : Bool :=
  match Json.getField j k with
  | some v => v.isStr
  | none => false

/-- The `typeof`/`Array.isArray` structure checks of `evaluateTask`
(ai.ts lines 346-352): a missing field behaves as `undefined` and fails
its check. -/
def validateStructure (evaluation : Json) : Bool :=
  fieldIsNum evaluation "score" &&
  fieldIsArr evaluation "strengths" &&
  fieldIsArr evaluation "improvements" &&
  fieldIsStr evaluation "feedback" &&
  fieldIsArr evaluation "suggestions"

/-- `evaluation.score = Math.max(1, Math.min(10, evaluation.score))`
(ai.ts line 358; the non-number branch is unreachable after validation). -/
def clampScore (evaluation : Json) : Json :=
  match Json.getField evaluation "score" with
  | some (.num n) => Json.setField evaluation "score" (.num (max 1 (min 10 n)))
  | _ => evaluation

def invalidFormatMsg : String := "AI returned an evaluation, but format was invalid"

/-- Validation followed by the clamp: the post-parse core of
`evaluateTask` (ai.ts lines 345-358); `.error` models the thrown
malformed-evaluation error. -/
def finalizePrimary (evaluation : Json) : Except String Json :=
  if validateStructure evaluation = false then .error invalidFormatMsg
  else .ok (clampScore evaluation)

/-- Modelled from the spec's schema sentence: "a numeric score, an array
of strings for strengths, an array of strings for improvements, a string
feedback field, and an array of strings for suggestions".  Used only to
compare the spec's schema against `validateStructure`. -/
def specEvaluationSchema (j : Json) : Bool :=
  fieldIsNum j "score" &&
  fieldIsStrArr j "strengths" &&
  fieldIsStrArr j "improvements" &&
  fieldIsStr j "feedback" &&
  fieldIsStrArr j "suggestions"
where
  fieldIsStrArr (j : Json) (k : String) : Bool :=
    match Json.getField j k with
    | some (.arr l) => l.all Json.isStr
    | _ => false

/-- The premium-insights attachment of `evaluateTask` (ai.ts lines
360-376): a successful secondary generation is attached, a thrown one is
swallowed and the primary evaluation is returned unchanged. -/
def evaluatePostParse (evaluation : Json) (premium : Except String Json) : Except String Json :=
  match finalizePrimary evaluation with
  | .error e => .error e
  | .ok clamped =>
    match premium with
    | .ok insights => .ok (Json.setField clamped "premiumInsights" insights)
    | .error _ => .ok clamped

/-! ### Premium-insights benchmark normalization
(`generatePremiumInsights`, ai.ts lines 509-544) -/

/-- The benchmark validation/clamping performed on the parsed premium
insights.  `evalScore` is `evaluation.score` (already clamped to [1,10]
by the primary pipeline). -/
def premiumInsightsNormalize (insights : Json) (evalScore : Int) : Json :=
  let cq : Int :=
    match Json.getField insights "codeQuality" with
    | some (.num n) => max 0 (min 100 n)
    | _ => max 0 (min 100 (evalScore * 10))
  let i1 := Json.setField insights "codeQuality" (.num cq)
  let ia : Int :=
    match Json.getField i1 "industryAverage" with
    | some (.num n) => max 0 (min 100 n)
    | _ => max 50 (min 80 (cq + 20))
  let i2 := Json.setField i1 "industryAverage" (.num ia)
  let tp : Int :=
    match Json.getField i2 "topPerformers" with
    | some (.num n) => max 0 (min 100 n)
    | _ => max 70 (min 98 (cq + 50))
  Json.setField i2 "topPerformers" (.num tp)

/-! ### Code truncation (`evaluateTask`, ai.ts lines 199-208) -/

def maxCodeLength : Nat := 8000

def truncationMarker : List Char := "\n\n[... Code truncated due to length ...]".data

/-- Returns the processed code and the `wasTruncated` flag. -/
def processCode (codeContent : List Char) : List Char × Bool :=
  if codeContent.length > maxCodeLength then
    (codeContent.take maxCodeLength ++ truncationMarker, true)
  else (codeContent, false)

/-! ### Model fallback (`callGroqChat`, `pickFallbackModel` and the
model loop of `evaluateTask`, ai.ts lines 89-143, 149-191, 264-309)

The external gateway is modelled as a function from model id to a
response `{ok, body}`; the models-listing endpoint as a separate
response value. -/

structure GroqResponse where
  ok : Bool
  body : List Char

/-- JS truthiness of a JSON value. -/
def jsTruthy : Json → Bool
  | .null => false
  | .bool b => b
  | .num n => n != 0
  | .str s => s ≠ ""
  | .arr _ => true
  | .obj _ => true

/-- `undefined` or `null` (the `??` test). -/
def jsNullish : Option Json → Bool
  | none => true
  | some .null => true
  | some _ => false

def choices0 (j : Json) : Option Json :=
  match Json.getField j "choices" with
  | some (.arr (c0 :: _)) => some c0
  | _ => none

/-- `json?.choices?.[0]?.message?.content ?? json?.choices?.[0]?.text`. -/
def choicesRaw (j : Json) : Option Json :=
  let c0 := choices0 j
  let content :=
    match c0 with
    | some c =>
      match Json.getField c "message" with
      | some m => Json.getField m "content"
      | none => none
    | none => none
  if jsNullish content then
    match c0 with
    | some c => Json.getField c "text"
    | none => none
  else content

/-- `callGroqChat` (ai.ts lines 149-191) as a function of the gateway's
response: non-ok throws; an ok response returns the extracted message
content when it is a non-empty string and otherwise returns the raw body
text (a non-string content is modelled as absent). -/
def callGroqChat (resp : GroqResponse) : Except Unit (List Char) :=
  if resp.ok = false then .error ()
  else
    match parseJson resp.body with
    | none => .ok resp.body
    | some j =>
      match choicesRaw j with
      | some (.str s) => if s.data.isEmpty then .ok resp.body else .ok s.data
      | _ => .ok resp.body

/-- The preferred model list of `evaluateTask` (ai.ts lines 265-270). -/
def preferredModels : List (List Char) :=
  ["llama-3.3-70b-versatile".data, "llama-3.3-8b-instant".data,
    "gemma2-9b-it".data, "mixtral-8x22b".data]

/-- `knownWorkingModels` (ai.ts lines 111-118). -/
def knownWorkingModels : List (List Char) :=
  ["llama-3.3-70b-versatile".data, "llama-3.3-8b-instant".data,
    "gemma2-9b-it".data, "mixtral-8x22b".data,
    "llama-3.1-70b-versatile".data, "llama-3.1-8b-instant".data]

/-- `preferOrder` (ai.ts line 134). -/
def preferOrder : List (List Char) :=
  ["llama-3.3".data, "gemma2".data, "mixtral-8x22b".data, "llama-3.1".data, "mixtral".data]

/-- The preference score of ai.ts lines 136-137:
`preferOrder.reduce((acc, key, idx) => s.toLowerCase().includes(key) ? acc + (10 - idx) : acc, 0)`. -/
def modelScore (s : List Char) : Nat :=
  preferOrder.enum.foldl
    (fun acc p => if jsIncludes (toLowerList s) p.2 then acc + (10 - p.1) else acc) 0

/-- Stable descending sort by `modelScore`: the unique result of the
source's stable `Array.prototype.sort` under the comparator
`score(b) - score(a)`. -/
def insertDesc (x : List Char) : List (List Char) → List (List Char)
  | [] => [x]
  | y :: ys => if modelScore y ≤ modelScore x then x :: y :: ys else y :: insertDesc x ys

def sortByScoreDesc : List (List Char) → List (List Char)
  | [] => []
  | x :: xs => insertDesc x (sortByScoreDesc xs)

structure ModelsResponse where
  ok : Bool
  body : Option Json

/-- A non-empty string field, as selected by JS truthiness. -/
def truthyStr : Option Json → Option (List Char)
  | some (.str s) => if s.data.isEmpty then none else some s.data
  | _ => none

/-- `m.id || m.model || m.name` (ai.ts line 121), with model ids modelled
as strings. -/
def modelIdOf (m : Json) : Option (List Char) :=
  match truthyStr (Json.getField m "id") with
  | some s => some s
  | none =>
    match truthyStr (Json.getField m "model") with
    | some s => some s
    | none => truthyStr (Json.getField m "name")

/-- The known-working filter of ai.ts lines 124-126:
`knownWorkingModels.some(known => m.includes(known) || m === known)`. -/
def isKnownWorkingModel (m : List Char) : Bool :=
  knownWorkingModels.any (fun known => jsIncludes m known || m == known)

/-- The `json.data` normalization of ai.ts lines 101-108. -/
def modelsData : Option Json → Option (List Json)
  | none => none
  | some j =>
    match Json.getField j "data" with
    | some (.arr l) => some l
    | some .null =>
      match j with
      | .arr l => some l
      | _ => none
    | some _ => none
    | none =>
      match j with
      | .arr l => some l
      | _ => none

/-- `pickFallbackModel` (ai.ts lines 89-143) as a function of the
models-listing response. -/
def pickFallbackModel (resp : ModelsResponse) : Option (List Char) :=
  if resp.ok = false then none
  else
    match modelsData resp.body with
    | none => none
    | some models =>
      let allModels := models.filterMap modelIdOf
      let workingModels := allModels.filter isKnownWorkingModel
      if workingModels.isEmpty then allModels.head?
      else (sortByScoreDesc workingModels).head?

structure ModelPhaseTrace where
  preferredTried : List (List Char)
  listingQueried : Bool
  fallbackTried : List (List Char)

/-- The preferred-model loop of `evaluateTask` (ai.ts lines 276-286):
stops at the first non-throwing call, recording the models attempted. -/
def tryPreferredGo (gw : List Char → GroqResponse) :
    List (List Char) → Option (List Char) × List (List Char)
  | [] => (none, [])
  | m :: ms =>
    match callGroqChat (gw m) with
    | .ok r => (some r, [m])
    | .error _ =>
      let next := tryPreferredGo gw ms
      (next.1, m :: next.2)

def noAvailableModelMsg : List Char := "No available model to perform AI evaluation".data

def groqNoOutputMsg : List Char := "Groq returned no output".data

/-- The fallback stage of ai.ts lines 288-309, entered when `rawOutput`
is still falsy after the preferred loop: pick a fallback from the
models listing (throwing "No available model..." when there is none) and
retry exactly once; a still-falsy `rawOutput` throws "Groq returned no
output". -/
def modelPhaseFallback (gw : List Char → GroqResponse) (listing : ModelsResponse)
    (tried : List (List Char)) : Except (List Char) (List Char) × ModelPhaseTrace :=
  match pickFallbackModel listing with
  | none => (.error noAvailableModelMsg, ⟨tried, true, []⟩)
  | some fb =>
    match callGroqChat (gw fb) with
    | .ok (c :: cs) => (.ok (c :: cs), ⟨tried, true, [fb]⟩)
    | _ => (.error groqNoOutputMsg, ⟨tried, true, [fb]⟩)

/-- The model-calling phase of `evaluateTask` (ai.ts lines 272-309):
preferred loop, then — when `rawOutput` is still falsy (`null` or the
empty string) — the models-listing fallback retried once.  Returns the
raw output or the thrown error, together with a trace of the calls
made. -/
def evaluateModelPhase (gw : List Char → GroqResponse) (listing : ModelsResponse) :
    Except (List Char) (List Char) × ModelPhaseTrace :=
  match tryPreferredGo gw preferredModels with
  | (some (c :: cs), tried) => (.ok (c :: cs), ⟨tried, false, []⟩)
  | (_, tried) => modelPhaseFallback gw listing tried

/-! ### Payment handlers

`verify-razorpay-payment/index.ts` and the `razorpay-webhook` function,
modelled as pure functions of the request, the authenticated user, the
gateway's lookup response and the database state.  `gatewayLookups`
records the payment ids looked up at the payment gateway;
`insertOk`/`updateOk` model whether the database insert/update calls
return an error. -/

structure PaymentRow where
  user_id : List Char
  task_id : List Char
  stripe_payment_id : Json
  amount : Json
  currency : Json
  payStatus : List Char

structure ProfileRow where
  user_id : List Char
  premium_user : Bool
  premium_since : Option (List Char)

structure TaskRow where
  id : List Char
  user_id : List Char
  report_unlocked : Bool

structure DBState where
  payments : List PaymentRow
  profiles : List ProfileRow
  tasks : List TaskRow

structure VerifyRequest where
  razorpay_payment_id : List Char
  razorpay_order_id : List Char
  razorpay_signature : List Char
  taskId : List Char

structure RazorpayLookup where
  ok : Bool
  payment : Json

structure HandlerOutcome where
  status : Nat
  db : DBState
  gatewayLookups : List (List Char)

/-- `!res.ok || payment.status !== "captured"` is false exactly when the
lookup succeeded with a string status `"captured"`. -/
def paymentCaptured (gw : RazorpayLookup) : Bool :=
  gw.ok &&
    match Json.getField gw.payment "status" with
    | some (.str s) => s = "captured"
    | _ => false

/-- The profile update of verify-razorpay-payment (lines 129-137). -/
def setPremium (uid now : List Char) (p : ProfileRow) : ProfileRow :=
  if p.user_id = uid then { p with premium_user := true, premium_since := some now } else p

/-- The POST handler of `verify-razorpay-payment/index.ts` (lines
44-163). -/
def verifyRazorpayPayment (req : VerifyRequest) (authUser : Option (List Char))
    (gw : RazorpayLookup) (db : DBState) (now : List Char)
    (insertOk updateOk : Bool) : HandlerOutcome :=
  if req.razorpay_payment_id = [] ∨ req.razorpay_order_id = [] ∨
      req.razorpay_signature = [] ∨ req.taskId = [] then ⟨400, db, []⟩
  else
    match authUser with
    | none => ⟨401, db, []⟩
    | some uid =>
      if paymentCaptured gw = false then ⟨400, db, [req.razorpay_payment_id]⟩
      else if insertOk = false then ⟨500, db, [req.razorpay_payment_id]⟩
      else
        let row : PaymentRow :=
          ⟨uid, req.taskId, .str (String.mk req.razorpay_payment_id),
            (Json.getField gw.payment "amount").getD .null,
            (Json.getField gw.payment "currency").getD .null, "completed".data⟩
        let db1 := { db with payments := db.payments ++ [row] }
        if updateOk = false then ⟨500, db1, [req.razorpay_payment_id]⟩
        else
          let db2 := { db1 with profiles := db1.profiles.map (setPremium uid now) }
          ⟨200, db2, [req.razorpay_payment_id]⟩

/-- The task update of the webhook (lines 99-110). -/
def unlockTask (taskId userId : List Char) (t : TaskRow) : TaskRow :=
  if t.id = taskId ∧ t.user_id = userId then { t with report_unlocked := true } else t

/-- `body.payload?.payment?.entity` (webhook line 49). -/
def webhookEntity (body : Json) : Option Json :=
  match Json.getField body "payload" with
  | some pl =>
    match Json.getField pl "payment" with
    | some pm => Json.getField pm "entity"
    | none => none
  | none => none

/-- Webhook lines 63-66: the notes object, defaulting to `{}` when
missing or not an object. -/
def webhookNotes (ent : Json) : Json :=
  match Json.getField ent "notes" with
  | some (.obj fs) => .obj fs
  | _ => .obj []

/-- `notes.task_id || notes.taskId` (webhook line 68), ids modelled as
strings. -/
def webhookTaskId (ent : Json) : Option (List Char) :=
  match truthyStr (Json.getField (webhookNotes ent) "task_id") with
  | some t => some t
  | none => truthyStr (Json.getField (webhookNotes ent) "taskId")

/-- `notes.user_id || notes.userId` (webhook line 69). -/
def webhookUserId (ent : Json) : Option (List Char) :=
  match truthyStr (Json.getField (webhookNotes ent) "user_id") with
  | some u => some u
  | none => truthyStr (Json.getField (webhookNotes ent) "userId")

/-- The payment-captured branch of the webhook (lines 45-113): record
the payment, then set the task's `report_unlocked`. -/
def webhookCapture (ent : Json) (db : DBState) (insertOk updateOk : Bool) : HandlerOutcome :=
  if jsTruthy ent = false then ⟨400, db, []⟩
  else
    match webhookTaskId ent, webhookUserId ent with
    | some tid, some uid =>
      if insertOk = false then ⟨500, db, []⟩
      else
        let row : PaymentRow :=
          ⟨uid, tid, (Json.getField ent "id").getD .null,
            (Json.getField ent "amount").getD .null,
            (Json.getField ent "currency").getD .null, "completed".data⟩
        let db1 := { db with payments := db.payments ++ [row] }
        if updateOk = false then ⟨500, db1, []⟩
        else ⟨200, { db1 with tasks := db1.tasks.map (unlockTask tid uid) }, []⟩
    | _, _ => ⟨400, db, []⟩

/-- `event === 'payment.captured'` (webhook line 45). -/
def isCapturedEventOf (body : Json) : Bool :=
  match Json.getField body "event" with
  | some (.str s) => s = "payment.captured"
  | _ => false

/-- The `razorpay-webhook` handler on a parsed body (lines 26-123).  Note
that it performs no payment-gateway lookup (`gatewayLookups = []`) and
touches `tasks.report_unlocked`, not the user's premium flag. -/
def razorpayWebhook (body : Json) (db : DBState) (insertOk updateOk : Bool) : HandlerOutcome :=
  if isCapturedEventOf body then
    match webhookEntity body with
    | none => ⟨400, db, []⟩
    | some ent => webhookCapture ent db insertOk updateOk
  else ⟨200, db, []⟩

/-! ### Concrete inputs used by witnesses and counterexamples -/

/-- A mistyped evaluation per the spec's schema (strengths holding
numbers, not strings) that the code's validation nevertheless accepts. -/
def c4MistypedInput : Json :=
  .obj [("score", .num 5), ("strengths", .arr [.num 1, .num 2]),
    ("improvements", .arr []), ("feedback", .str "x"), ("suggestions", .arr [])]

/-- The spec's `score`-as-string example. -/
def c4ScoreStringInput : Json :=
  .obj [("score", .str "9"), ("strengths", .arr []), ("improvements", .arr []),
    ("feedback", .str "x"), ("suggestions", .arr [])]

def c5Input : Json :=
  .obj [("score", .num 15), ("strengths", .arr []), ("improvements", .arr []),
    ("feedback", .str "ok"), ("suggestions", .arr [])]

def c9Input : Json :=
  .obj [("score", .num 8), ("strengths", .arr [.str "clear"]), ("improvements", .arr []),
    ("feedback", .str "good"), ("suggestions", .arr [])]

def c3Req : VerifyRequest := ⟨"pay_9".data, "order_9".data, "sig_9".data, "task_9".data⟩

def c3Gw : RazorpayLookup := ⟨true, .obj [("status", .str "failed"), ("amount", .num 19900)]⟩

def c3Db : DBState := ⟨[], [⟨"u9".data, false, none⟩], []⟩

def c1WebhookBody : Json :=
  .obj [("event", .str "payment.captured"),
    ("payload", .obj [("payment", .obj [("entity", .obj
      [("id", .str "pay_123"), ("amount", .num 19900), ("currency", .str "INR"),
        ("status", .str "captured"),
        ("notes", .obj [("task_id", .str "t1"), ("user_id", .str "u1")])])])])]

def c1Db : DBState := ⟨[], [⟨"u1".data, false, none⟩], [⟨"t1".data, "u1".data, false⟩]⟩

def c1VReq : VerifyRequest := ⟨"pay_A".data, "order_A".data, "sig_A".data, "task_A".data⟩

def c1VGw : RazorpayLookup :=
  ⟨true, .obj [("status", .str "captured"), ("amount", .num 19900), ("currency", .str "INR")]⟩

def c1VDb : DBState := ⟨[], [⟨"uA".data, false, none⟩], []⟩

def c6Gw : List Char → GroqResponse := fun m =>
  if m = "llama-3.3-70b-versatile".data then ⟨true, "I am not JSON".data⟩ else ⟨false, []⟩

def c6Listing : ModelsResponse := ⟨false, none⟩

def c6wGw : List Char → GroqResponse := fun _ => ⟨true, "not json either".data⟩

def c7Listing : ModelsResponse :=
  ⟨true, some (.obj [("data", .arr [.obj [("id", .str "llama-3.3-70b-versatile")]])])⟩

def c7Gw : List Char → GroqResponse := fun _ => ⟨false, []⟩

/-- The object part of the witness: a full evaluation object. -/
def c2Mid : List Char :=
  "\"score\":7,\"strengths\":[],\"improvements\":[],\"feedback\":\"ok\",\"suggestions\":[]".data

/-- A valid evaluation object whose `feedback` string contains a closing
brace. -/
def c2BraceJson : List Char :=
  ("\x7b\"score\":5,\"strengths\":[],\"improvements\":[],\"feedback\":\"\x7d\",\"suggestions\":[]\x7d").data

def c7wListing : ModelsResponse :=
  ⟨true, some (.obj [("data", .arr
    [.obj [("id", .str "gemma2-9b-it")],
      .obj [("id", .str "llama-3.3-70b-versatile")]])])⟩

/-! ## Helper lemmas -/

namespace Json

theorem lookupKey_setKey_self (fields : List (String × Json)) (k : String) (v : Json) :
    getField.lookupKey (setField.setKey fields k v) k = some v := by
  induction fields with
  | nil => simp [setField.setKey, getField.lookupKey]
  | cons hd tl ih =>
    obtain ⟨k', v'⟩ := hd
    by_cases h : k' = k
    · simp [setField.setKey, getField.lookupKey, h]
    · simp [setField.setKey, getField.lookupKey, h, ih]

theorem lookupKey_setKey_other (fields : List (String × Json)) (k k' : String) (v : Json)
    (h : k' ≠ k) :
    getField.lookupKey (setField.setKey fields k v) k' = getField.lookupKey fields k' := by
  induction fields with
  | nil =>
    have hk : ¬ k = k' := fun h' => h h'.symm
    simp [setField.setKey, getField.lookupKey, hk]
  | cons hd tl ih =>
    obtain ⟨k₀, v₀⟩ := hd
    by_cases h₀ : k₀ = k
    · subst h₀
      have hk : ¬ k₀ = k' := fun h' => h h'.symm
      simp [setField.setKey, getField.lookupKey, hk]
    · simp [setField.setKey, getField.lookupKey, h₀, ih]

theorem getField_setField_self (fields : List (String × Json)) (k : String) (v : Json) :
    getField (setField (.obj fields) k v) k = some v := by
  simp [setField, getField, lookupKey_setKey_self]

theorem getField_setField_other (fields : List (String × Json)) (k k' : String) (v : Json)
    (h : k' ≠ k) :
    getField (setField (.obj fields) k v) k' = getField (.obj fields) k' := by
  simp [setField, getField, lookupKey_setKey_other _ _ _ _ h]

/-- A successful field lookup means the value is an object. -/
theorem getField_some_obj {j : Json} {k : String} {v : Json} (h : getField j k = some v) :
    ∃ fields, j = .obj fields := by
  cases j <;> simp [getField] at h ⊢

end Json

/-- `validateStructure` guarantees a numeric `score` field. -/
theorem validateStructure_score {j : Json} (h : validateStructure j = true) :
    ∃ n : Int, Json.getField j "score" = some (.num n) := by
  have hs : fieldIsNum j "score" = true := by
    simp only [validateStructure, Bool.and_eq_true] at h
    exact h.1.1.1.1
  unfold fieldIsNum at hs
  cases hg : Json.getField j "score" with
  | none => rw [hg] at hs; simp at hs
  | some v =>
    rw [hg] at hs
    cases v <;> simp [Json.isNum] at hs
    exact ⟨_, rfl⟩

/-! ## Claims -/

/-! ### C4 — validation of the parsed evaluation object -/

/-- C4 counterexample: an evaluation whose `strengths` is an array of
numbers is mistyped with respect to the spec's schema, yet
`finalizePrimary` accepts it — the pipeline does not raise the
malformed-evaluation error for element-level type errors. -/
theorem validation_accepts_mistyped_array_elements :
    specEvaluationSchema c4MistypedInput = false ∧
    validateStructure c4MistypedInput = true ∧
    finalizePrimary c4MistypedInput = .ok c4MistypedInput :=
  ⟨rfl, rfl, rfl⟩

/-- C4 (amended): an evaluation object with a missing required field, a
non-number `score`, a non-array `strengths`/`improvements`/`suggestions`
or a non-string `feedback` is rejected with the hard
malformed-evaluation error, and no result is produced; element types
inside the arrays are not checked. -/
theorem malformed_evaluation_rejected (j : Json)
    (h : (∀ v, Json.getField j "score" = some v → v.isNum = false) ∨
      (∀ v, Json.getField j "strengths" = some v → v.isArr = false) ∨
      (∀ v, Json.getField j "improvements" = some v → v.isArr = false) ∨
      (∀ v, Json.getField j "feedback" = some v → v.isStr = false) ∨
      (∀ v, Json.getField j "suggestions" = some v → v.isArr = false)) :
    finalizePrimary j = .error invalidFormatMsg := by
  have hv : validateStructure j = false := by
    rcases h with h | h | h | h | h
    · cases hg : Json.getField j "score" with
      | none => simp [validateStructure, fieldIsNum, hg]
      | some v => simp [validateStructure, fieldIsNum, hg, h v hg]
    · cases hg : Json.getField j "strengths" with
      | none => simp [validateStructure, fieldIsArr, hg]
      | some v => simp [validateStructure, fieldIsArr, hg, h v hg]
    · cases hg : Json.getField j "improvements" with
      | none => simp [validateStructure, fieldIsArr, hg]
      | some v => simp [validateStructure, fieldIsArr, hg, h v hg]
    · cases hg : Json.getField j "feedback" with
      | none => simp [validateStructure, fieldIsStr, hg]
      | some v => simp [validateStructure, fieldIsStr, hg, h v hg]
    · cases hg : Json.getField j "suggestions" with
      | none => simp [validateStructure, fieldIsArr, hg]
      | some v => simp [validateStructure, fieldIsArr, hg, h v hg]
  simp [finalizePrimary, hv]

theorem malformed_evaluation_rejected_witness :
    finalizePrimary c4ScoreStringInput = .error invalidFormatMsg :=
  malformed_evaluation_rejected c4ScoreStringInput
    (Or.inl (by intro v hv; simp [c4ScoreStringInput, Json.getField,
      Json.getField.lookupKey] at hv; subst hv; rfl))

/-! ### C5 — score clamping -/

/-- C5: every successfully finalized evaluation carries a numeric score
in [1, 10], and a validated evaluation with score `n` is stored with
`Math.max(1, Math.min(10, n))`. -/
theorem score_clamped_in_range :
    (∀ j r, finalizePrimary j = .ok r →
      ∃ n : Int, Json.getField r "score" = some (.num n) ∧ 1 ≤ n ∧ n ≤ 10) ∧
    (∀ j (n : Int), Json.getField j "score" = some (.num n) → validateStructure j = true →
      finalizePrimary j = .ok (Json.setField j "score" (.num (max 1 (min 10 n))))) := by
  constructor
  · intro j r hr
    unfold finalizePrimary at hr
    by_cases hval : validateStructure j = false
    · simp [hval] at hr
    · have hval' : validateStructure j = true := by
        cases hv : validateStructure j
        · exact absurd hv hval
        · rfl
      simp [hval'] at hr
      obtain ⟨n, hn⟩ := validateStructure_score hval'
      obtain ⟨fields, hf⟩ := Json.getField_some_obj hn
      subst hf
      refine ⟨max 1 (min 10 n), ?_, ?_, ?_⟩
      · rw [← hr]
        simp [clampScore, hn, Json.getField_setField_self]
      · omega
      · omega
  · intro j n hn hval
    simp [finalizePrimary, hval, clampScore, hn]

theorem score_clamped_in_range_witness :
    finalizePrimary c5Input = .ok (Json.setField c5Input "score" (.num (max 1 (min 10 15)))) ∧
    (∃ n : Int, Json.getField (Json.setField c5Input "score" (.num (max 1 (min 10 15))))
      "score" = some (.num n) ∧ 1 ≤ n ∧ n ≤ 10) := by
  have h1 := score_clamped_in_range.2 c5Input 15 rfl rfl
  have h2 := score_clamped_in_range.1 c5Input _ h1
  exact ⟨h1, h2⟩

/-! ### C8 — code truncation -/

/-- C8: code at or below the 8000-character ceiling is embedded
unchanged; longer code is cut to the first 8000 characters with the
truncation marker appended (so the embedded code is always bounded and
the pipeline proceeds normally). -/
theorem code_truncation_behavior :
    (∀ code : List Char, code.length ≤ maxCodeLength → processCode code = (code, false)) ∧
    (∀ code : List Char, maxCodeLength < code.length →
      processCode code = (code.take maxCodeLength ++ truncationMarker, true) ∧
      (processCode code).1.length = maxCodeLength + truncationMarker.length) := by
  constructor
  · intro code h
    simp [processCode, Nat.not_lt.mpr h]
  · intro code h
    refine ⟨by simp [processCode, h], ?_⟩
    simp [processCode, h, List.length_take]
    omega

theorem code_truncation_behavior_witness :
    processCode ("ab".data) = ("ab".data, false) ∧
    processCode (List.replicate 50000 'a') =
      ((List.replicate 50000 'a').take maxCodeLength ++ truncationMarker, true) := by
  refine ⟨code_truncation_behavior.1 _ (by decide), ?_⟩
  exact (code_truncation_behavior.2 _
    (by rw [List.length_replicate]; norm_num [maxCodeLength])).1

/-! ### C9 — premium-insights failure is non-fatal -/

/-- C9: when the primary evaluation validates but premium-insights
generation throws, the pipeline still returns the primary evaluation:
the result keeps every non-score field of the parsed object (the score
is clamped into [1,10]) and the `premiumInsights` field stays absent
whenever the parsed primary object had none — it is not null-filled. -/
theorem premium_failure_nonfatal (j : Json) (msg : String)
    (hval : validateStructure j = true)
    (habs : Json.getField j "premiumInsights" = none) :
    ∃ r, evaluatePostParse j (.error msg) = .ok r ∧
      Json.getField r "premiumInsights" = none ∧
      (∀ k : String, k ≠ "score" → Json.getField r k = Json.getField j k) ∧
      (∃ n : Int, Json.getField r "score" = some (.num n) ∧ 1 ≤ n ∧ n ≤ 10) := by
  obtain ⟨n, hn⟩ := validateStructure_score hval
  obtain ⟨fields, hf⟩ := Json.getField_some_obj hn
  subst hf
  refine ⟨clampScore (.obj fields), ?_, ?_, ?_, ?_⟩
  · simp [evaluatePostParse, finalizePrimary, hval]
  · rw [show clampScore (.obj fields) =
      Json.setField (.obj fields) "score" (.num (max 1 (min 10 n))) by simp [clampScore, hn]]
    rw [Json.getField_setField_other _ _ _ _ (by decide)]
    exact habs
  · intro k hk
    rw [show clampScore (.obj fields) =
      Json.setField (.obj fields) "score" (.num (max 1 (min 10 n))) by simp [clampScore, hn]]
    exact Json.getField_setField_other _ _ _ _ hk
  · refine ⟨max 1 (min 10 n), ?_, by omega, by omega⟩
    rw [show clampScore (.obj fields) =
      Json.setField (.obj fields) "score" (.num (max 1 (min 10 n))) by simp [clampScore, hn]]
    exact Json.getField_setField_self _ _ _

theorem premium_failure_nonfatal_witness :
    ∃ r, evaluatePostParse c9Input (.error "Failed to generate premium insights") = .ok r ∧
      Json.getField r "premiumInsights" = none ∧
      (∀ k : String, k ≠ "score" → Json.getField r k = Json.getField c9Input k) ∧
      (∃ n : Int, Json.getField r "score" = some (.num n) ∧ 1 ≤ n ∧ n ≤ 10) :=
  premium_failure_nonfatal c9Input _ rfl rfl

/-! ### C10 — premium benchmark fields -/

/-- C10: the three benchmark fields of a returned premium-insights
object are numbers in [0, 100]; a non-number `codeQuality` is replaced
by the clamped `score * 10` default, and non-number
`industryAverage`/`topPerformers` by defaults derived from the
normalized `codeQuality` — all within [0, 100]. -/
theorem premium_benchmarks_in_range (fs : List (String × Json)) (score : Int) :
    ∃ a b c : Int,
      Json.getField (premiumInsightsNormalize (.obj fs) score) "codeQuality" =
        some (.num a) ∧ 0 ≤ a ∧ a ≤ 100 ∧
      Json.getField (premiumInsightsNormalize (.obj fs) score) "industryAverage" =
        some (.num b) ∧ 0 ≤ b ∧ b ≤ 100 ∧
      Json.getField (premiumInsightsNormalize (.obj fs) score) "topPerformers" =
        some (.num c) ∧ 0 ≤ c ∧ c ≤ 100 ∧
      ((∀ v, Json.getField (.obj fs) "codeQuality" = some v → v.isNum = false) →
        a = max 0 (min 100 (score * 10))) ∧
      ((∀ v, Json.getField (.obj fs) "industryAverage" = some v → v.isNum = false) →
        b = max 50 (min 80 (a + 20))) ∧
      ((∀ v, Json.getField (.obj fs) "topPerformers" = some v → v.isNum = false) →
        c = max 70 (min 98 (a + 50))) := by
  set cqv : Int := (match Json.getField.lookupKey fs "codeQuality" with
    | some (Json.num n) => max 0 (min 100 n)
    | _ => max 0 (min 100 (score * 10))) with hcqv
  set fs1 := Json.setField.setKey fs "codeQuality" (Json.num cqv) with hfs1
  set iav : Int := (match Json.getField.lookupKey fs1 "industryAverage" with
    | some (Json.num n) => max 0 (min 100 n)
    | _ => max 50 (min 80 (cqv + 20))) with hiav
  set fs2 := Json.setField.setKey fs1 "industryAverage" (Json.num iav) with hfs2
  set tpv : Int := (match Json.getField.lookupKey fs2 "topPerformers" with
    | some (Json.num n) => max 0 (min 100 n)
    | _ => max 70 (min 98 (cqv + 50))) with htpv
  have hres : premiumInsightsNormalize (.obj fs) score =
      .obj (Json.setField.setKey fs2 "topPerformers" (Json.num tpv)) := rfl
  have hgetcq : Json.getField (premiumInsightsNormalize (.obj fs) score) "codeQuality" =
      some (.num cqv) := by
    rw [hres]
    show Json.getField.lookupKey _ _ = _
    rw [Json.lookupKey_setKey_other _ _ _ _ (by decide : ("codeQuality" : String) ≠ "topPerformers"),
      hfs2,
      Json.lookupKey_setKey_other _ _ _ _ (by decide : ("codeQuality" : String) ≠ "industryAverage"),
      hfs1, Json.lookupKey_setKey_self]
  have hgetia : Json.getField (premiumInsightsNormalize (.obj fs) score) "industryAverage" =
      some (.num iav) := by
    rw [hres]
    show Json.getField.lookupKey _ _ = _
    rw [Json.lookupKey_setKey_other _ _ _ _
        (by decide : ("industryAverage" : String) ≠ "topPerformers"),
      hfs2, Json.lookupKey_setKey_self]
  have hgettp : Json.getField (premiumInsightsNormalize (.obj fs) score) "topPerformers" =
      some (.num tpv) := by
    rw [hres]
    show Json.getField.lookupKey _ _ = _
    rw [Json.lookupKey_setKey_self]
  have hcqb : 0 ≤ cqv ∧ cqv ≤ 100 := by
    rw [hcqv]
    rcases Json.getField.lookupKey fs "codeQuality" with _ | v
    · constructor <;> simp <;> omega
    · cases v <;> (try (constructor <;> simp <;> omega)) <;> omega
  have hiab : 0 ≤ iav ∧ iav ≤ 100 := by
    rw [hiav]
    rcases Json.getField.lookupKey fs1 "industryAverage" with _ | v
    · constructor <;> simp <;> omega
    · cases v <;> (try (constructor <;> simp <;> omega)) <;> omega
  have htpb : 0 ≤ tpv ∧ tpv ≤ 100 := by
    rw [htpv]
    rcases Json.getField.lookupKey fs2 "topPerformers" with _ | v
    · constructor <;> simp <;> omega
    · cases v <;> (try (constructor <;> simp <;> omega)) <;> omega
  have hia_fs : Json.getField.lookupKey fs1 "industryAverage" =
      Json.getField.lookupKey fs "industryAverage" := by
    rw [hfs1,
      Json.lookupKey_setKey_other _ _ _ _ (by decide : ("industryAverage" : String) ≠ "codeQuality")]
  have htp_fs : Json.getField.lookupKey fs2 "topPerformers" =
      Json.getField.lookupKey fs "topPerformers" := by
    rw [hfs2,
      Json.lookupKey_setKey_other _ _ _ _
        (by decide : ("topPerformers" : String) ≠ "industryAverage"),
      hfs1,
      Json.lookupKey_setKey_other _ _ _ _ (by decide : ("topPerformers" : String) ≠ "codeQuality")]
  refine ⟨cqv, iav, tpv, hgetcq, hcqb.1, hcqb.2, hgetia, hiab.1, hiab.2, hgettp,
    htpb.1, htpb.2, ?_, ?_, ?_⟩
  · intro h
    rw [hcqv]
    rcases hm : Json.getField.lookupKey fs "codeQuality" with _ | v
    · rfl
    · have hv := h v hm
      cases v <;> simp [Json.isNum] at hv ⊢
  · intro h
    rw [hiav, hia_fs]
    rcases hm : Json.getField.lookupKey fs "industryAverage" with _ | v
    · rfl
    · have hv := h v hm
      cases v <;> simp [Json.isNum] at hv ⊢
  · intro h
    rw [htpv, htp_fs]
    rcases hm : Json.getField.lookupKey fs "topPerformers" with _ | v
    · rfl
    · have hv := h v hm
      cases v <;> simp [Json.isNum] at hv ⊢

/-- Instantiation with every benchmark field absent and a primary score
of 7: `codeQuality` defaults to 70, `industryAverage` to 80 and
`topPerformers` to 98. -/
theorem premium_benchmarks_in_range_witness :
    ∃ a b c : Int,
      Json.getField (premiumInsightsNormalize (.obj []) 7) "codeQuality" =
        some (.num a) ∧ 0 ≤ a ∧ a ≤ 100 ∧
      Json.getField (premiumInsightsNormalize (.obj []) 7) "industryAverage" =
        some (.num b) ∧ 0 ≤ b ∧ b ≤ 100 ∧
      Json.getField (premiumInsightsNormalize (.obj []) 7) "topPerformers" =
        some (.num c) ∧ 0 ≤ c ∧ c ≤ 100 ∧
      ((∀ v, Json.getField (.obj []) "codeQuality" = some v → v.isNum = false) →
        a = max 0 (min 100 (7 * 10))) ∧
      ((∀ v, Json.getField (.obj []) "industryAverage" = some v → v.isNum = false) →
        b = max 50 (min 80 (a + 20))) ∧
      ((∀ v, Json.getField (.obj []) "topPerformers" = some v → v.isNum = false) →
        c = max 70 (min 98 (a + 50))) :=
  premium_benchmarks_in_range [] 7

/-! ### C3 — uncaptured payment rejected by the verify endpoint -/

/-- C3: when the payment gateway's lookup reports a string status other
than "captured", the verify handler responds with a 400 failure and the
database is unchanged — no Payment row inserted, premium flag
untouched. -/
theorem verify_rejects_uncaptured (req : VerifyRequest) (u : List Char)
    (gw : RazorpayLookup) (db : DBState) (now : List Char) (iOk uOk : Bool) (s : String)
    (h1 : req.razorpay_payment_id ≠ []) (h2 : req.razorpay_order_id ≠ [])
    (h3 : req.razorpay_signature ≠ []) (h4 : req.taskId ≠ [])
    (hs : Json.getField gw.payment "status" = some (.str s))
    (hns : s ≠ "captured") :
    (verifyRazorpayPayment req (some u) gw db now iOk uOk).status = 400 ∧
    (verifyRazorpayPayment req (some u) gw db now iOk uOk).db = db := by
  have hcap : paymentCaptured gw = false := by
    simp [paymentCaptured, hs, hns]
  unfold verifyRazorpayPayment
  simp [h1, h2, h3, h4, hcap]

theorem verify_rejects_uncaptured_witness :
    (verifyRazorpayPayment c3Req (some ("u9".data)) c3Gw c3Db ("2026-01-01".data)
      true true).status = 400 ∧
    (verifyRazorpayPayment c3Req (some ("u9".data)) c3Gw c3Db ("2026-01-01".data)
      true true).db = c3Db :=
  verify_rejects_uncaptured c3Req _ c3Gw c3Db _ true true "failed"
    (by decide) (by decide) (by decide) (by decide) rfl (by decide)

/-! ### C1 — the two payment-capture entry points -/

/-- C1 counterexample: a payment.captured webhook delivery accepted with
HTTP 200 performs no gateway lookup and leaves the owning user's premium
flag untouched (it records the payment and unlocks the task's report
instead), contradicting the claim that both entry points confirm the
captured state with the gateway and set the premium flag with a
timestamp. -/
theorem webhook_accepts_without_gateway_or_premium :
    (razorpayWebhook c1WebhookBody c1Db true true).status = 200 ∧
    (razorpayWebhook c1WebhookBody c1Db true true).gatewayLookups = [] ∧
    (razorpayWebhook c1WebhookBody c1Db true true).db.profiles = [⟨"u1".data, false, none⟩] ∧
    (razorpayWebhook c1WebhookBody c1Db true true).db.payments.length = 1 ∧
    (razorpayWebhook c1WebhookBody c1Db true true).db.tasks = [⟨"t1".data, "u1".data, true⟩] :=
  ⟨rfl, rfl, rfl, rfl, rfl⟩

/-- C1 (amended): a capture accepted (HTTP 200) by the synchronous
verify endpoint has confirmed a "captured" status with the gateway,
inserted a Payment row and set the owning user's premium flag true with
a timestamp; the asynchronous webhook, by contrast, performs no gateway
lookup and never touches the premium flag — an accepted capture event
there records the Payment row and sets the task's report_unlocked
flag. -/
theorem capture_entry_points_effects :
    (∀ req u gw db now iOk uOk,
      (verifyRazorpayPayment req (some u) gw db now iOk uOk).status = 200 →
        paymentCaptured gw = true ∧
        (verifyRazorpayPayment req (some u) gw db now iOk uOk).gatewayLookups =
          [req.razorpay_payment_id] ∧
        (∃ row, (verifyRazorpayPayment req (some u) gw db now iOk uOk).db.payments =
          db.payments ++ [row] ∧ row.payStatus = "completed".data ∧
          row.stripe_payment_id = .str (String.mk req.razorpay_payment_id)) ∧
        (verifyRazorpayPayment req (some u) gw db now iOk uOk).db.profiles =
          db.profiles.map (setPremium u now)) ∧
    (∀ body db iOk uOk,
      (razorpayWebhook body db iOk uOk).gatewayLookups = [] ∧
      (razorpayWebhook body db iOk uOk).db.profiles = db.profiles) ∧
    (∀ body db iOk uOk,
      Json.getField body "event" = some (.str "payment.captured") →
      (razorpayWebhook body db iOk uOk).status = 200 →
      ∃ tid uid row,
        (razorpayWebhook body db iOk uOk).db.payments = db.payments ++ [row] ∧
        row.payStatus = "completed".data ∧
        (razorpayWebhook body db iOk uOk).db.tasks = db.tasks.map (unlockTask tid uid)) := by
  refine ⟨?_, ?_, ?_⟩
  · intro req u gw db now iOk uOk h
    unfold verifyRazorpayPayment at h ⊢
    by_cases hf : req.razorpay_payment_id = [] ∨ req.razorpay_order_id = [] ∨
        req.razorpay_signature = [] ∨ req.taskId = []
    · simp [hf] at h
    · cases hcap : paymentCaptured gw
      · simp [hf, hcap] at h
      · cases iOk
        · simp [hf, hcap] at h
        · cases uOk
          · simp [hf, hcap] at h
          · simp [hf, hcap]
  · intro body db iOk uOk
    have hcap : ∀ ent, (webhookCapture ent db iOk uOk).gatewayLookups = [] ∧
        (webhookCapture ent db iOk uOk).db.profiles = db.profiles := by
      intro ent
      unfold webhookCapture
      split
      · exact ⟨rfl, rfl⟩
      · split
        · split
          · exact ⟨rfl, rfl⟩
          · split
            · exact ⟨rfl, rfl⟩
            · exact ⟨rfl, rfl⟩
        · exact ⟨rfl, rfl⟩
    cases hc : isCapturedEventOf body
    · simp [razorpayWebhook, hc]
    · rcases hent : webhookEntity body with _ | ent
      · simp [razorpayWebhook, hc, hent]
      · simpa [razorpayWebhook, hc, hent] using hcap ent
  · intro body db iOk uOk hev h
    have hc : isCapturedEventOf body = true := by simp [isCapturedEventOf, hev]
    unfold razorpayWebhook at h ⊢
    rw [hc] at h ⊢
    simp only [if_true] at h ⊢
    rcases hent : webhookEntity body with _ | ent
    · rw [hent] at h
      simp at h
    · rw [hent] at h
      dsimp only at h ⊢
      cases hT : jsTruthy ent
      · unfold webhookCapture at h
        rw [if_pos hT] at h
        simp at h
      · have hT' : ¬ (jsTruthy ent = false) := by simp [hT]
        rcases htid : webhookTaskId ent with _ | tid
        · unfold webhookCapture at h
          rw [if_neg hT', htid] at h
          rcases huid : webhookUserId ent with _ | uid <;> rw [huid] at h <;> simp at h
        · rcases huid : webhookUserId ent with _ | uid
          · unfold webhookCapture at h
            rw [if_neg hT', htid, huid] at h
            simp at h
          · cases hiOk : iOk
            · unfold webhookCapture at h
              rw [if_neg hT', htid, huid] at h
              simp [hiOk] at h
            · cases huOk : uOk
              · unfold webhookCapture at h
                rw [if_neg hT', htid, huid] at h
                simp [hiOk, huOk] at h
              · refine ⟨tid, uid,
                  ⟨uid, tid, (Json.getField ent "id").getD .null,
                    (Json.getField ent "amount").getD .null,
                    (Json.getField ent "currency").getD .null, "completed".data⟩, ?_, rfl, ?_⟩
                · simp [webhookCapture, if_neg hT', htid, huid]
                · simp [webhookCapture, if_neg hT', htid, huid]

theorem capture_entry_points_effects_witness :
    (paymentCaptured c1VGw = true ∧
      (verifyRazorpayPayment c1VReq (some ("uA".data)) c1VGw c1VDb ("2026-02-02".data)
        true true).gatewayLookups = ["pay_A".data] ∧
      (∃ row, (verifyRazorpayPayment c1VReq (some ("uA".data)) c1VGw c1VDb ("2026-02-02".data)
        true true).db.payments = c1VDb.payments ++ [row] ∧
        row.payStatus = "completed".data ∧
        row.stripe_payment_id = .str (String.mk ("pay_A".data))) ∧
      (verifyRazorpayPayment c1VReq (some ("uA".data)) c1VGw c1VDb ("2026-02-02".data)
        true true).db.profiles =
        c1VDb.profiles.map (setPremium ("uA".data) ("2026-02-02".data))) ∧
    ((razorpayWebhook c1WebhookBody c1Db true true).gatewayLookups = [] ∧
      (razorpayWebhook c1WebhookBody c1Db true true).db.profiles = c1Db.profiles) ∧
    (∃ tid uid row,
      (razorpayWebhook c1WebhookBody c1Db true true).db.payments = c1Db.payments ++ [row] ∧
      row.payStatus = "completed".data ∧
      (razorpayWebhook c1WebhookBody c1Db true true).db.tasks =
        c1Db.tasks.map (unlockTask tid uid)) :=
  ⟨capture_entry_points_effects.1 c1VReq ("uA".data) c1VGw c1VDb ("2026-02-02".data)
      true true rfl,
    capture_entry_points_effects.2.1 c1WebhookBody c1Db true true,
    capture_entry_points_effects.2.2 c1WebhookBody c1Db true true rfl rfl⟩

/-! ### Lemmas about the model-fallback machinery -/

theorem callGroqChat_error (r : GroqResponse) (h : r.ok = false) :
    callGroqChat r = .error () := by
  simp [callGroqChat, h]

theorem callGroqChat_ok_bad (r : GroqResponse) (hok : r.ok = true)
    (hbad : parseJson r.body = none) : callGroqChat r = .ok r.body := by
  simp [callGroqChat, hok, hbad]

theorem tryPreferredGo_all_fail (gw : List Char → GroqResponse) (ms : List (List Char))
    (h : ∀ m ∈ ms, (gw m).ok = false) : tryPreferredGo gw ms = (none, ms) := by
  induction ms with
  | nil => rfl
  | cons m ms ih =>
    have hm := callGroqChat_error _ (h m (by simp))
    simp [tryPreferredGo, hm, ih (fun m' hm' => h m' (by simp [hm']))]

theorem tryPreferredGo_first_ok (gw : List Char → GroqResponse)
    (pre : List (List Char)) (m0 : List Char) (post : List (List Char))
    (hpre : ∀ m ∈ pre, (gw m).ok = false)
    (r : List Char) (hok : callGroqChat (gw m0) = .ok r) :
    tryPreferredGo gw (pre ++ m0 :: post) = (some r, pre ++ [m0]) := by
  induction pre with
  | nil => simp [tryPreferredGo, hok]
  | cons p ps ih =>
    have hp := callGroqChat_error _ (hpre p (by simp))
    have ih' := ih (fun m' h' => hpre m' (by simp [h']))
    simp [List.cons_append, tryPreferredGo, hp, ih']

theorem modelPhaseFallback_spec (gw : List Char → GroqResponse) (listing : ModelsResponse)
    (tried : List (List Char)) :
    (modelPhaseFallback gw listing tried).2.listingQueried = true ∧
    (modelPhaseFallback gw listing tried).2.preferredTried = tried ∧
    (modelPhaseFallback gw listing tried).2.fallbackTried =
      (pickFallbackModel listing).toList ∧
    (pickFallbackModel listing = none →
      (modelPhaseFallback gw listing tried).1 = .error noAvailableModelMsg) ∧
    (∀ fb, pickFallbackModel listing = some fb → (gw fb).ok = false →
      (modelPhaseFallback gw listing tried).1 = .error groqNoOutputMsg) := by
  rcases hp : pickFallbackModel listing with _ | fb
  · simp [modelPhaseFallback, hp]
  · have hred : modelPhaseFallback gw listing tried =
        (match callGroqChat (gw fb) with
          | .ok (c :: cs) => (.ok (c :: cs), ⟨tried, true, [fb]⟩)
          | _ => (.error groqNoOutputMsg, ⟨tried, true, [fb]⟩)) := by
      unfold modelPhaseFallback
      rw [hp]
    rw [hred]
    refine ⟨?_, ?_, ?_, by simp [hp], ?_⟩
    · split <;> rfl
    · split <;> rfl
    · split <;> simp [hp]
    · intro fb' hfb' hfail
      injection hfb' with heq
      subst heq
      rw [callGroqChat_error _ hfail]

/-! ### Lemmas about the stable descending sort -/

theorem mem_insertDesc {x a : List Char} {l : List (List Char)} :
    a ∈ insertDesc x l ↔ a = x ∨ a ∈ l := by
  induction l with
  | nil => simp [insertDesc]
  | cons y ys ih =>
    unfold insertDesc
    split
    · simp
    · simp [ih]
      tauto

theorem mem_sortByScoreDesc {a : List Char} {l : List (List Char)} :
    a ∈ sortByScoreDesc l ↔ a ∈ l := by
  induction l with
  | nil => simp [sortByScoreDesc]
  | cons x xs ih => simp [sortByScoreDesc, mem_insertDesc, ih]

theorem pairwise_insertDesc {x : List Char} {l : List (List Char)}
    (h : l.Pairwise (fun a b => modelScore b ≤ modelScore a)) :
    (insertDesc x l).Pairwise (fun a b => modelScore b ≤ modelScore a) := by
  induction l with
  | nil => simp [insertDesc]
  | cons y ys ih =>
    rw [List.pairwise_cons] at h
    unfold insertDesc
    split
    · rename_i hxy
      refine List.Pairwise.cons ?_ (List.pairwise_cons.mpr h)
      intro b hb
      rcases List.mem_cons.mp hb with rfl | hb
      · exact hxy
      · exact le_trans (h.1 b hb) hxy
    · rename_i hxy
      refine List.Pairwise.cons ?_ (ih h.2)
      intro b hb
      rcases mem_insertDesc.mp hb with rfl | hb
      · omega
      · exact h.1 b hb

theorem pairwise_sortByScoreDesc (l : List (List Char)) :
    (sortByScoreDesc l).Pairwise (fun a b => modelScore b ≤ modelScore a) := by
  induction l with
  | nil => simp [sortByScoreDesc]
  | cons x xs ih => exact pairwise_insertDesc ih

theorem sortByScoreDesc_eq_nil {l : List (List Char)} :
    sortByScoreDesc l = [] ↔ l = [] := by
  cases l with
  | nil => simp [sortByScoreDesc]
  | cons x xs =>
    simp only [sortByScoreDesc]
    constructor
    · intro h
      have : x ∈ insertDesc x (sortByScoreDesc xs) := mem_insertDesc.mpr (Or.inl rfl)
      rw [h] at this
      simp at this
    · intro h
      simp at h

theorem sortByScoreDesc_head_max {l : List (List Char)} {m : List Char}
    (h : (sortByScoreDesc l).head? = some m) :
    m ∈ l ∧ ∀ m' ∈ l, modelScore m' ≤ modelScore m := by
  have hp := pairwise_sortByScoreDesc l
  cases hs : sortByScoreDesc l with
  | nil => rw [hs] at h; simp at h
  | cons hd tl =>
    rw [hs] at h hp
    injection h with h
    subst h
    rw [List.pairwise_cons] at hp
    constructor
    · exact mem_sortByScoreDesc.mp (hs ▸ List.mem_cons_self _ _)
    · intro m' hm'
      have : m' ∈ sortByScoreDesc l := mem_sortByScoreDesc.mpr hm'
      rw [hs] at this
      rcases List.mem_cons.mp this with rfl | hmem
      · exact le_refl _
      · exact hp.1 m' hmem

/-- The two result shapes of `pickFallbackModel` on a usable listing. -/
theorem pickFallbackModel_ranked (resp : ModelsResponse) (models : List Json)
    (hok : resp.ok = true) (hdata : modelsData resp.body = some models) :
    (((models.filterMap modelIdOf).filter isKnownWorkingModel ≠ [] →
      ∃ m, pickFallbackModel resp = some m ∧
        m ∈ (models.filterMap modelIdOf).filter isKnownWorkingModel ∧
        ∀ m' ∈ (models.filterMap modelIdOf).filter isKnownWorkingModel,
          modelScore m' ≤ modelScore m)) ∧
    ((models.filterMap modelIdOf).filter isKnownWorkingModel = [] →
      pickFallbackModel resp = (models.filterMap modelIdOf).head?) := by
  have hpick : pickFallbackModel resp =
      (if ((models.filterMap modelIdOf).filter isKnownWorkingModel).isEmpty then
        (models.filterMap modelIdOf).head?
      else (sortByScoreDesc ((models.filterMap modelIdOf).filter isKnownWorkingModel)).head?) := by
    unfold pickFallbackModel
    rw [hok, hdata]
    simp
  constructor
  · intro hne
    have hie : ((models.filterMap modelIdOf).filter isKnownWorkingModel).isEmpty = false := by
      simpa [List.isEmpty_iff] using hne
    rw [hpick, hie]
    simp only [Bool.false_eq_true, if_false]
    have hsne : sortByScoreDesc ((models.filterMap modelIdOf).filter isKnownWorkingModel) ≠ [] :=
      fun hcontra => hne (sortByScoreDesc_eq_nil.mp hcontra)
    cases hs : sortByScoreDesc ((models.filterMap modelIdOf).filter isKnownWorkingModel) with
    | nil => exact absurd hs hsne
    | cons hd tl =>
      refine ⟨hd, by simp, ?_⟩
      have := sortByScoreDesc_head_max (l :=
        (models.filterMap modelIdOf).filter isKnownWorkingModel) (m := hd) (by rw [hs]; rfl)
      exact this
  · intro he
    rw [hpick, he]
    simp

/-! ### C6 — 200 response with unparseable or missing body -/

/-- C6 counterexample: the first preferred model answers 200 with an
unparseable body; `callGroqChat` returns the raw body as a success, the
preferred loop stops right there (no further candidate is tried, no
listing queried) — the condition is not treated as a per-model
failure. -/
theorem ok_unparseable_treated_as_success :
    parseJson ("I am not JSON".data) = none ∧
    (evaluateModelPhase c6Gw c6Listing).1 = .ok ("I am not JSON".data) ∧
    (evaluateModelPhase c6Gw c6Listing).2.preferredTried =
      ["llama-3.3-70b-versatile".data] ∧
    (evaluateModelPhase c6Gw c6Listing).2.listingQueried = false :=
  ⟨rfl, rfl, rfl, rfl⟩

/-- C6 (amended): a 200 response with an unparseable non-empty body is
returned as raw text and accepted by the loop — the loop stops at that
candidate and the parse failure only surfaces later as a hard
invalid-JSON error; a 200 with an empty body leaves `rawOutput` falsy,
which skips the remaining preferred candidates and goes straight to the
models-listing fallback stage. -/
theorem ok_bad_body_model_loop (gw : List Char → GroqResponse) (listing : ModelsResponse)
    (pre : List (List Char)) (m0 : List Char) (post : List (List Char))
    (hsplit : preferredModels = pre ++ m0 :: post)
    (hpre : ∀ m ∈ pre, (gw m).ok = false)
    (hok : (gw m0).ok = true)
    (hbad : parseJson (gw m0).body = none) :
    ((gw m0).body ≠ [] →
      (evaluateModelPhase gw listing).1 = .ok (gw m0).body ∧
      (evaluateModelPhase gw listing).2.preferredTried = pre ++ [m0] ∧
      (evaluateModelPhase gw listing).2.listingQueried = false) ∧
    ((gw m0).body = [] →
      (evaluateModelPhase gw listing).2.preferredTried = pre ++ [m0] ∧
      (evaluateModelPhase gw listing).2.listingQueried = true) := by
  have hcall := callGroqChat_ok_bad _ hok hbad
  have htry : tryPreferredGo gw preferredModels = (some (gw m0).body, pre ++ [m0]) := by
    rw [hsplit]
    exact tryPreferredGo_first_ok gw pre m0 post hpre _ hcall
  constructor
  · intro hne
    rcases hb : (gw m0).body with _ | ⟨c, cs⟩
    · exact absurd hb hne
    · unfold evaluateModelPhase
      rw [htry, hb]
      exact ⟨rfl, rfl, rfl⟩
  · intro hb
    unfold evaluateModelPhase
    rw [htry, hb]
    have := modelPhaseFallback_spec gw listing (pre ++ [m0])
    exact ⟨this.2.1, this.1⟩

theorem ok_bad_body_model_loop_witness :
    (evaluateModelPhase c6wGw ⟨false, none⟩).1 = .ok ("not json either".data) ∧
    (evaluateModelPhase c6wGw ⟨false, none⟩).2.preferredTried =
      [] ++ ["llama-3.3-70b-versatile".data] ∧
    (evaluateModelPhase c6wGw ⟨false, none⟩).2.listingQueried = false :=
  (ok_bad_body_model_loop c6wGw ⟨false, none⟩ [] ("llama-3.3-70b-versatile".data)
    ["llama-3.3-8b-instant".data, "gemma2-9b-it".data, "mixtral-8x22b".data]
    rfl (by simp) rfl rfl).1 (by decide)

/-! ### C7 — fallback via the models listing -/

/-- C7 counterexample: every preferred model fails, the listing offers a
working fallback model, and the single retry with it also fails — no
model yields output, yet the evaluation fails with the "Groq returned no
output" error, not the "no available model" error the claim names. -/
theorem fallback_failure_message_mismatch :
    pickFallbackModel c7Listing = some ("llama-3.3-70b-versatile".data) ∧
    (evaluateModelPhase c7Gw c7Listing).1 = .error groqNoOutputMsg ∧
    (evaluateModelPhase c7Gw c7Listing).2.fallbackTried =
      ["llama-3.3-70b-versatile".data] ∧
    groqNoOutputMsg ≠ noAvailableModelMsg :=
  ⟨rfl, rfl, rfl, by decide⟩

/-- C7 (amended): when all prioritized candidates fail, the caller
queries the model listing, filters it to the known-good subset, ranks by
the preference score (substring matching) and retries exactly once with
the top-ranked model (with no known-good match it takes the first listed
model); if the listing yields no candidate the evaluation fails with the
"no available model" error, while a failing retry fails with the "Groq
returned no output" error. -/
theorem all_preferred_fail_fallback (gw : List Char → GroqResponse) (listing : ModelsResponse)
    (h : ∀ m ∈ preferredModels, (gw m).ok = false) :
    ((evaluateModelPhase gw listing).2.listingQueried = true ∧
      (evaluateModelPhase gw listing).2.preferredTried = preferredModels ∧
      (evaluateModelPhase gw listing).2.fallbackTried = (pickFallbackModel listing).toList ∧
      (pickFallbackModel listing = none →
        (evaluateModelPhase gw listing).1 = .error noAvailableModelMsg) ∧
      (∀ fb, pickFallbackModel listing = some fb → (gw fb).ok = false →
        (evaluateModelPhase gw listing).1 = .error groqNoOutputMsg)) ∧
    (∀ resp models, resp.ok = true → modelsData resp.body = some models →
      (((models.filterMap modelIdOf).filter isKnownWorkingModel ≠ [] →
        ∃ m, pickFallbackModel resp = some m ∧
          m ∈ (models.filterMap modelIdOf).filter isKnownWorkingModel ∧
          ∀ m' ∈ (models.filterMap modelIdOf).filter isKnownWorkingModel,
            modelScore m' ≤ modelScore m)) ∧
      ((models.filterMap modelIdOf).filter isKnownWorkingModel = [] →
        pickFallbackModel resp = (models.filterMap modelIdOf).head?)) := by
  constructor
  · have htry : tryPreferredGo gw preferredModels = (none, preferredModels) :=
      tryPreferredGo_all_fail gw preferredModels h
    have hmain : evaluateModelPhase gw listing =
        modelPhaseFallback gw listing preferredModels := by
      unfold evaluateModelPhase
      rw [htry]
    rw [hmain]
    have hs := modelPhaseFallback_spec gw listing preferredModels
    exact ⟨hs.1, hs.2.1, hs.2.2.1, hs.2.2.2.1, hs.2.2.2.2⟩
  · intro resp models hok hdata
    exact pickFallbackModel_ranked resp models hok hdata

/-! ### Lemmas about extraction and sanitizing (for C2) -/

theorem findBraceStart_append (p r : List Char) (hp : lbraceChar ∉ p) :
    findBraceStart (p ++ r) = findBraceStart r := by
  induction p with
  | nil => rfl
  | cons c cs ih =>
    have hc : ¬ c = lbraceChar := fun h => hp (h ▸ List.mem_cons_self _ _)
    have hcs : lbraceChar ∉ cs := fun h => hp (List.mem_cons_of_mem _ h)
    simp [findBraceStart, hc, ih hcs]

theorem scanBrace_append (t extra : List Char) (d : Int) (acc res : List Char)
    (h : scanBrace t d acc = some res) :
    scanBrace (t ++ extra) d acc = some res := by
  induction t generalizing d acc with
  | nil => simp [scanBrace] at h
  | cons c cs ih =>
    rw [List.cons_append]
    simp only [scanBrace] at h ⊢
    by_cases hc : c = lbraceChar
    · simp only [if_pos hc] at h ⊢
      exact ih _ _ h
    · by_cases hc2 : c = rbraceChar
      · simp only [if_neg hc, if_pos hc2] at h ⊢
        by_cases hd : d = 1
        · simp only [if_pos hd] at h ⊢
          exact h
        · simp only [if_neg hd] at h ⊢
          exact ih _ _ h
      · simp only [if_neg hc, if_neg hc2] at h ⊢
        exact ih _ _ h

theorem extractFirstJson_scan (mid : List Char)
    (hJ : extractFirstJson (lbraceChar :: mid ++ [rbraceChar]) =
      some (lbraceChar :: mid ++ [rbraceChar])) :
    scanBrace (lbraceChar :: mid ++ [rbraceChar]) 0 [] =
      some (lbraceChar :: mid ++ [rbraceChar]) := by
  unfold extractFirstJson at hJ
  rw [show findBraceStart (lbraceChar :: mid ++ [rbraceChar]) =
    some (lbraceChar :: mid ++ [rbraceChar]) from by simp [findBraceStart]] at hJ
  exact hJ

theorem extractFirstJson_concat (p mid suffix : List Char)
    (hp : lbraceChar ∉ p)
    (hs : scanBrace (lbraceChar :: mid ++ [rbraceChar]) 0 [] =
      some (lbraceChar :: mid ++ [rbraceChar])) :
    extractFirstJson (p ++ (lbraceChar :: mid ++ [rbraceChar]) ++ suffix) =
      some (lbraceChar :: mid ++ [rbraceChar]) := by
  unfold extractFirstJson
  rw [List.append_assoc, findBraceStart_append p _ hp]
  rw [show findBraceStart ((lbraceChar :: mid ++ [rbraceChar]) ++ suffix) =
    some ((lbraceChar :: mid ++ [rbraceChar]) ++ suffix) from by simp [findBraceStart]]
  exact scanBrace_append _ _ _ _ _ hs

theorem dropWhile_ws_append (x y : List Char)
    (hy : ∀ c, y.head? = some c → isJsWs c = false) :
    (x ++ y).dropWhile isJsWs = x.dropWhile isJsWs ++ y := by
  induction x with
  | nil =>
    cases y with
    | nil => simp
    | cons c cs => simp [List.dropWhile_cons, hy c rfl]
  | cons c cs ih =>
    by_cases hc : isJsWs c
    · simp [List.dropWhile_cons, hc, ih]
    · simp [List.dropWhile_cons, hc]

theorem dropWhile_ws_concat (p x : List Char) (hp : p.dropWhile isJsWs ≠ []) :
    (p ++ x).dropWhile isJsWs = p.dropWhile isJsWs ++ x := by
  induction p with
  | nil => simp at hp
  | cons c cs ih =>
    by_cases hc : isJsWs c
    · simp only [List.dropWhile_cons, hc, if_true] at hp
      simp only [List.cons_append, List.dropWhile_cons, hc, if_true]
      exact ih hp
    · simp [List.cons_append, List.dropWhile_cons, hc]

theorem jsTrim_J (mid : List Char) :
    jsTrim (lbraceChar :: mid ++ [rbraceChar]) = lbraceChar :: mid ++ [rbraceChar] := by
  have hlb : isJsWs lbraceChar = false := by decide
  have hrb : isJsWs rbraceChar = false := by decide
  unfold jsTrim
  rw [show List.dropWhile isJsWs (lbraceChar :: mid ++ [rbraceChar]) =
    lbraceChar :: mid ++ [rbraceChar] from by simp [List.dropWhile_cons, hlb]]
  rw [show (lbraceChar :: mid ++ [rbraceChar]).reverse =
    rbraceChar :: (lbraceChar :: mid).reverse from by simp]
  rw [show List.dropWhile isJsWs (rbraceChar :: (lbraceChar :: mid).reverse) =
    rbraceChar :: (lbraceChar :: mid).reverse from by simp [List.dropWhile_cons, hrb]]
  simp

theorem jsTrim_concat (prose mid suffix : List Char)
    (hpw : prose.dropWhile isJsWs ≠ []) :
    jsTrim (prose ++ (lbraceChar :: mid ++ [rbraceChar]) ++ suffix) =
      prose.dropWhile isJsWs ++ (lbraceChar :: mid ++ [rbraceChar]) ++
        (suffix.reverse.dropWhile isJsWs).reverse := by
  unfold jsTrim
  rw [List.append_assoc, dropWhile_ws_concat _ _ hpw, ← List.append_assoc]
  rw [show (prose.dropWhile isJsWs ++ (lbraceChar :: mid ++ [rbraceChar]) ++ suffix).reverse =
    suffix.reverse ++ ((lbraceChar :: mid ++ [rbraceChar]).reverse ++
      (prose.dropWhile isJsWs).reverse) from by simp]
  rw [dropWhile_ws_append _ _ (by
    intro c hc
    rw [show (lbraceChar :: mid ++ [rbraceChar]).reverse ++ (prose.dropWhile isJsWs).reverse =
      rbraceChar :: ((lbraceChar :: mid).reverse ++ (prose.dropWhile isJsWs).reverse)
      from by simp] at hc
    simp only [List.head?_cons, Option.some.injEq] at hc
    subst hc
    decide)]
  simp

theorem matchFenceJson_none (c : Char) (cs : List Char) (hc : c ≠ backtickChar) :
    matchFenceJson (c :: cs) = none := by
  simp [matchFenceJson, hc]

theorem matchFence_none (c : Char) (cs : List Char) (hc : c ≠ backtickChar) :
    matchFence (c :: cs) = none := by
  simp [matchFence, hc]

theorem matchCodeField_none (field l : List Char) (h : backtickChar ∉ l) :
    matchCodeField field l = none := by
  cases l with
  | nil => rfl
  | cons c rest =>
    simp only [matchCodeField]
    split
    · cases hsw : skipWs (rest.drop (field.length + 2)) with
      | nil => rfl
      | cons b r3 =>
        have hb : b ∈ rest := by
          have h1 : b ∈ skipWs (rest.drop (field.length + 2)) := by
            rw [hsw]
            exact List.mem_cons_self _ _
          have h2 := List.dropWhile_sublist (p := isJsWs) (l := rest.drop (field.length + 2))
          have h3 := List.drop_sublist (field.length + 2) rest
          exact h3.subset (h2.subset h1)
        have hbn : ¬ b = backtickChar := fun hEq => h (hEq ▸ List.mem_cons_of_mem _ hb)
        simp [hsw, hbn]
    · rfl

theorem removeFenceJsonGo_id (fuel : Nat) (l : List Char) (h : backtickChar ∉ l) :
    removeFenceJsonGo fuel l = l := by
  induction fuel generalizing l with
  | zero => rfl
  | succ f ih =>
    cases l with
    | nil => rfl
    | cons c cs =>
      have hc : c ≠ backtickChar := fun hEq => h (hEq ▸ List.mem_cons_self _ _)
      have hcs : backtickChar ∉ cs := fun hm => h (List.mem_cons_of_mem _ hm)
      unfold removeFenceJsonGo
      rw [matchFenceJson_none c cs hc, ih cs hcs]

theorem removeFenceGo_id (fuel : Nat) (l : List Char) (h : backtickChar ∉ l) :
    removeFenceGo fuel l = l := by
  induction fuel generalizing l with
  | zero => rfl
  | succ f ih =>
    cases l with
    | nil => rfl
    | cons c cs =>
      have hc : c ≠ backtickChar := fun hEq => h (hEq ▸ List.mem_cons_self _ _)
      have hcs : backtickChar ∉ cs := fun hm => h (List.mem_cons_of_mem _ hm)
      unfold removeFenceGo
      rw [matchFence_none c cs hc, ih cs hcs]

theorem replaceBacktickPairsGo_id (fuel : Nat) (l : List Char) (h : backtickChar ∉ l) :
    replaceBacktickPairsGo fuel l = l := by
  induction fuel generalizing l with
  | zero => rfl
  | succ f ih =>
    cases l with
    | nil => rfl
    | cons c cs =>
      have hc : ¬ c = backtickChar := fun hEq => h (hEq ▸ List.mem_cons_self _ _)
      have hcs : backtickChar ∉ cs := fun hm => h (List.mem_cons_of_mem _ hm)
      unfold replaceBacktickPairsGo
      rw [if_neg hc, ih cs hcs]

theorem replaceCodeFieldGo_id (field : List Char) (fuel : Nat) (l : List Char)
    (h : backtickChar ∉ l) : replaceCodeFieldGo field fuel l = l := by
  induction fuel generalizing l with
  | zero => rfl
  | succ f ih =>
    cases l with
    | nil => rfl
    | cons c cs =>
      have hcs : backtickChar ∉ cs := fun hm => h (List.mem_cons_of_mem _ hm)
      unfold replaceCodeFieldGo
      rw [matchCodeField_none field _ h, ih cs hcs]

theorem filter_backtick_id (l : List Char) (h : backtickChar ∉ l) :
    l.filter (fun c => c ≠ backtickChar) = l :=
  List.filter_eq_self.mpr
    (fun a ha => decide_eq_true (fun hEq => h (hEq ▸ ha)))

theorem removeFenceJson_id (l : List Char) (h : backtickChar ∉ l) :
    removeFenceJson l = l := removeFenceJsonGo_id _ _ h

theorem removeFence_id (l : List Char) (h : backtickChar ∉ l) :
    removeFence l = l := removeFenceGo_id _ _ h

theorem replaceBacktickPairs_id (l : List Char) (h : backtickChar ∉ l) :
    replaceBacktickPairs l = l := replaceBacktickPairsGo_id _ _ h

theorem replaceCodeField_id (field l : List Char) (h : backtickChar ∉ l) :
    replaceCodeField field l = l := replaceCodeFieldGo_id _ _ _ h

theorem sanitizeJson_id (mid : List Char)
    (h : backtickChar ∉ lbraceChar :: mid ++ [rbraceChar]) :
    sanitizeJson (lbraceChar :: mid ++ [rbraceChar]) = lbraceChar :: mid ++ [rbraceChar] := by
  unfold sanitizeJson
  rw [jsTrim_J, removeFenceJson_id _ h, removeFence_id _ h,
    replaceBacktickPairs_id _ h, replaceCodeField_id _ _ h,
    replaceCodeField_id _ _ h, filter_backtick_id _ h]

theorem extractCandidate_clean (mid : List Char) :
    extractCandidate (lbraceChar :: mid ++ [rbraceChar]) =
      lbraceChar :: mid ++ [rbraceChar] := by
  unfold extractCandidate
  rw [jsTrim_J]
  simp [startsWithLbrace]

theorem extractCandidate_noisy (prose mid suffix : List Char)
    (hscan : scanBrace (lbraceChar :: mid ++ [rbraceChar]) 0 [] =
      some (lbraceChar :: mid ++ [rbraceChar]))
    (hpb : lbraceChar ∉ prose)
    (hpw : prose.dropWhile isJsWs ≠ []) :
    extractCandidate (prose ++ (lbraceChar :: mid ++ [rbraceChar]) ++ suffix) =
      lbraceChar :: mid ++ [rbraceChar] := by
  obtain ⟨c, cs, hp'⟩ : ∃ c cs, prose.dropWhile isJsWs = c :: cs := by
    cases hx : prose.dropWhile isJsWs with
    | nil => exact absurd hx hpw
    | cons c cs => exact ⟨c, cs, rfl⟩
  have hsub : ∀ a ∈ prose.dropWhile isJsWs, a ∈ prose :=
    fun a ha => (List.dropWhile_sublist (p := isJsWs) (l := prose)).subset ha
  have hc : ¬ c = lbraceChar := by
    intro hEq
    exact hpb (hEq ▸ hsub c (hp' ▸ List.mem_cons_self _ _))
  have hcm : lbraceChar ∉ c :: cs := by
    intro hm
    exact hpb (hsub _ (hp' ▸ hm))
  unfold extractCandidate
  rw [jsTrim_concat prose mid suffix hpw, hp']
  rw [show ((c :: cs) ++ (lbraceChar :: mid ++ [rbraceChar]) ++
    (suffix.reverse.dropWhile isJsWs).reverse) =
    c :: (cs ++ (lbraceChar :: mid ++ [rbraceChar]) ++
      (suffix.reverse.dropWhile isJsWs).reverse) from by simp]
  rw [show startsWithLbrace (c :: (cs ++ (lbraceChar :: mid ++ [rbraceChar]) ++
    (suffix.reverse.dropWhile isJsWs).reverse)) = false from by
      simp [startsWithLbrace, hc]]
  simp only [Bool.false_eq_true, if_false]
  rw [show (c :: (cs ++ (lbraceChar :: mid ++ [rbraceChar]) ++
    (suffix.reverse.dropWhile isJsWs).reverse)) =
    ((c :: cs) ++ (lbraceChar :: mid ++ [rbraceChar]) ++
      (suffix.reverse.dropWhile isJsWs).reverse) from by simp]
  rw [extractFirstJson_concat (c :: cs) mid _ hcm hscan]

/-! ### C2 — normalizer under noisy wrappings -/

/-- C2 (amended): for an object text `J` starting with a brace and
ending with one, containing no backticks, and whose naive brace scan
recovers exactly `J` (no brace characters hiding inside its string
literals), the normalizer applied to any wrapping `prose ++ J ++ suffix`
— leading prose or fences containing no opening brace and at least one
non-whitespace character — yields exactly `JSON.parse J`, the same
result as normalizing the clean `J`. -/
theorem normalizer_noise_recovery (mid prose suffix : List Char)
    (hJ : extractFirstJson (lbraceChar :: mid ++ [rbraceChar]) =
      some (lbraceChar :: mid ++ [rbraceChar]))
    (hnb : backtickChar ∉ lbraceChar :: mid ++ [rbraceChar])
    (hpb : lbraceChar ∉ prose)
    (hpw : prose.dropWhile isJsWs ≠ []) :
    normalizeAIResponse (prose ++ (lbraceChar :: mid ++ [rbraceChar]) ++ suffix) =
      parseJson (lbraceChar :: mid ++ [rbraceChar]) ∧
    normalizeAIResponse (lbraceChar :: mid ++ [rbraceChar]) =
      parseJson (lbraceChar :: mid ++ [rbraceChar]) := by
  have hscan := extractFirstJson_scan mid hJ
  constructor
  · unfold normalizeAIResponse
    rw [extractCandidate_noisy prose mid suffix hscan hpb hpw, sanitizeJson_id mid hnb]
  · unfold normalizeAIResponse
    rw [extractCandidate_clean mid, sanitizeJson_id mid hnb]

theorem normalizer_noise_recovery_witness :
    normalizeAIResponse (("```json\n").data ++
      (lbraceChar :: c2Mid ++ [rbraceChar]) ++ ("\n```").data) =
      parseJson (lbraceChar :: c2Mid ++ [rbraceChar]) ∧
    (parseJson (lbraceChar :: c2Mid ++ [rbraceChar])).isSome = true :=
  ⟨(normalizer_noise_recovery c2Mid (("```json\n").data) (("\n```").data)
      (by decide) (by decide) (by decide) (by decide)).1,
    by decide⟩

/-- C2 counterexample: the clean object parses, but with leading prose
the brace-depth extractor truncates at the `rbraceChar` inside the
`feedback` string, and the normalizer fails where the clean parse
succeeds. -/
theorem normalizer_brace_in_string_fails :
    (normalizeAIResponse c2BraceJson).isSome = true ∧
    normalizeAIResponse (("The evaluation: ").data ++ c2BraceJson) = none :=
  ⟨rfl, rfl⟩

theorem all_preferred_fail_fallback_witness :
    (evaluateModelPhase c7Gw c7wListing).2.listingQueried = true ∧
    (evaluateModelPhase c7Gw c7wListing).2.preferredTried = preferredModels ∧
    (evaluateModelPhase c7Gw c7wListing).1 = .error groqNoOutputMsg ∧
    (∃ m, pickFallbackModel c7wListing = some m ∧
      m ∈ (["gemma2-9b-it".data, "llama-3.3-70b-versatile".data].filter
        isKnownWorkingModel) ∧
      ∀ m' ∈ (["gemma2-9b-it".data, "llama-3.3-70b-versatile".data].filter
        isKnownWorkingModel), modelScore m' ≤ modelScore m) := by
  have hall : ∀ m ∈ preferredModels, (c7Gw m).ok = false := by
    intro m hm
    rfl
  have hmain := all_preferred_fail_fallback c7Gw c7wListing hall
  refine ⟨hmain.1.1, hmain.1.2.1, ?_, ?_⟩
  · exact hmain.1.2.2.2.2 ("llama-3.3-70b-versatile".data) rfl rfl
  · exact (hmain.2 c7wListing
      [.obj [("id", .str "gemma2-9b-it")], .obj [("id", .str "llama-3.3-70b-versatile")]]
      rfl rfl).1 (by decide)

end EvalMate
